import Mathlib

/-!
Verification of the RadarQT reliable-UDP telemetry layer
(`src/TelemetryReceiver/reliableudp.h` / `reliableudp.cpp`).

The C++ classes `ReliableUdpReceiver` and `ReliableUdpSender` are embedded
shallowly: member state becomes a Lean structure, each member function
becomes a pure function from state (plus the externally supplied inputs:
current time, transmit success) to state plus the list of emitted
packets/events.  `quint32` arithmetic is `Nat` arithmetic reduced mod 2^32
where the C++ can wrap; `double` fields are modelled as `ℚ`; `QDateTime`
values as `ℤ` milliseconds; `QHash` as an association list with distinct
keys.
-/

namespace RadarQT

/-- 2^32, the modulus of C++ `quint32` arithmetic. -/
def U32 : Nat := 4294967296

/-- `quint32` subtraction `a - b` (wrapping), for `a < U32`. -/
def u32sub (a b : Nat) : Nat := (a % U32 + (U32 - b % U32)) % U32

/-- One telemetry observation (struct `TelemetryPacket` in `reliableudp.h`).
`latitude`/`longitude`/`speed` are C++ `double`, modelled as `ℚ`;
`timestamp` is a `QDateTime`, modelled as milliseconds since epoch. -/
structure TelemetryPacket where
  sequenceNumber : Nat
  timestamp : ℤ
  latitude : ℚ
  longitude : ℚ
  speed : ℚ
  status : String
  needsAck : Bool
deriving DecidableEq, Repr

/-- The C++ default constructor `TelemetryPacket()`:
seq 0, coordinates 0, `needsAck` false, empty status string. -/
def TelemetryPacket.init : TelemetryPacket :=
  ⟨0, 0, 0, 0, 0, "", false⟩

/-- Acknowledgment (struct `AckPacket` in `reliableudp.h`). -/
structure AckPacket where
  sequenceNumber : Nat
  timestamp : ℤ
deriving DecidableEq, Repr

/-- The receiver's `QHash<quint32, TelemetryPacket> m_receivedPackets`,
an association list keyed by sequence number. -/
abbrev Buffer := List (Nat × TelemetryPacket)

/-- Mutable state of `ReliableUdpReceiver` (data fields of the class that
the reliability logic reads or writes). -/
structure ReceiverState where
  receivedPackets : Buffer
  expectedSequenceNumber : Nat
  lastValidSequenceNumber : Nat
  lastValidPacket : TelemetryPacket
  interpolationEnabled : Bool
  maxBufferSize : Nat
  packetsReceived : Nat
  packetsLost : Nat
  packetsInterpolated : Nat
  acksSent : Nat
deriving DecidableEq, Repr

/-- Constructor state of `ReliableUdpReceiver` (member initializer list). -/
def ReceiverState.init : ReceiverState :=
  { receivedPackets := []
    expectedSequenceNumber := 1
    lastValidSequenceNumber := 0
    lastValidPacket := TelemetryPacket.init
    interpolationEnabled := true
    maxBufferSize := 1000
    packetsReceived := 0
    packetsLost := 0
    packetsInterpolated := 0
    acksSent := 0 }

/-- `ReliableUdpReceiver::processReceivedPacket`: count the datagram,
raise the last-valid watermark when `seq >= m_lastValidSequenceNumber`,
emit the packet immediately, and advance `m_expectedSequenceNumber`
past the packet when `seq >= m_expectedSequenceNumber` — the increment
`packet.sequenceNumber + 1` is `quint32` arithmetic, hence mod 2^32.
Returns the new state and the packets emitted via `telemetryDataReceived`.
(The source never inserts the packet into `m_receivedPackets`.) -/
def processReceivedPacket (st : ReceiverState) (p : TelemetryPacket) :
    ReceiverState × List TelemetryPacket :=
  let st1 := { st with packetsReceived := st.packetsReceived + 1 }
  let st2 :=
    if st1.lastValidSequenceNumber ≤ p.sequenceNumber then
      { st1 with lastValidSequenceNumber := p.sequenceNumber, lastValidPacket := p }
    else st1
  let st3 :=
    if st2.expectedSequenceNumber ≤ p.sequenceNumber then
      { st2 with expectedSequenceNumber := (p.sequenceNumber + 1) % U32 }
    else st2
  (st3, [p])

/-- Process a whole arrival sequence with `processReceivedPacket`. -/
def processAll (st : ReceiverState) (ps : List TelemetryPacket) : ReceiverState :=
  ps.foldl (fun s p => (processReceivedPacket s p).1) st

/-- Backward search of `ReliableUdpReceiver::interpolatePacket`:
`for (quint32 i = sequenceNumber - 1; i > 0 && i > sequenceNumber - 10; --i)`.
`lower` is the (wrapped) `quint32` value of `sequenceNumber - 10`; `i`
starts at the (wrapped) value of `sequenceNumber - 1`.  The loop body runs
at most 9 times, so fuel 10 is exact. -/
def searchDown (buf : Buffer) (lower : Nat) : Nat → Nat → Option TelemetryPacket
  | 0, _ => none
  | fuel + 1, i =>
    if 0 < i ∧ lower < i then
      match buf.lookup i with
      | some p => some p
      | none => searchDown buf lower fuel (u32sub i 1)
    else none

/-- Forward search of `ReliableUdpReceiver::interpolatePacket`:
`for (quint32 i = sequenceNumber + 1; i < sequenceNumber + 10; ++i)`.
`upper` is the (wrapped) `quint32` value of `sequenceNumber + 10`. -/
def searchUp (buf : Buffer) (upper : Nat) : Nat → Nat → Option TelemetryPacket
  | 0, _ => none
  | fuel + 1, i =>
    if i < upper then
      match buf.lookup i with
      | some p => some p
      | none => searchUp buf upper fuel ((i + 1) % U32)
    else none

/-- `ReliableUdpReceiver::interpolatePacket`.  Looks for the nearest
buffered packets before and after `s` (with the source's wrapping
`quint32` loop bounds), then linearly interpolates, copies the single
neighbour, or falls back to `m_lastValidPacket`. -/
def interpolatePacket (buf : Buffer) (lastValidPacket : TelemetryPacket)
    (now : ℤ) (s : Nat) : TelemetryPacket :=
  let beforeP := searchDown buf (u32sub s 10) 10 (u32sub s 1)
  let afterP := searchUp buf ((s + 10) % U32) 10 ((s + 1) % U32)
  let base : TelemetryPacket :=
    { TelemetryPacket.init with sequenceNumber := s, timestamp := now, status := "INTERPOLATED" }
  match beforeP, afterP with
  | some b, some a =>
    let factor : ℚ :=
      (u32sub s b.sequenceNumber : ℚ) / (u32sub a.sequenceNumber b.sequenceNumber : ℚ)
    { base with
      latitude := b.latitude + factor * (a.latitude - b.latitude)
      longitude := b.longitude + factor * (a.longitude - b.longitude)
      speed := b.speed + factor * (a.speed - b.speed) }
  | some b, none =>
    { base with latitude := b.latitude, longitude := b.longitude, speed := b.speed }
  | none, some a =>
    { base with latitude := a.latitude, longitude := a.longitude, speed := a.speed }
  | none, none =>
    { base with
      latitude := lastValidPacket.latitude
      longitude := lastValidPacket.longitude
      speed := lastValidPacket.speed }

/-- Body of the gap loop in `ReliableUdpReceiver::checkForMissingPackets`
for one sequence number `seq`: if `seq` is not buffered it is declared
lost, an interpolated packet (or a copy of `m_lastValidPacket`) is
emitted, and `m_expectedSequenceNumber` is set to `seq + 1`. -/
def gapStep (st : ReceiverState) (now : ℤ) (seq : Nat) :
    ReceiverState × List TelemetryPacket :=
  if (st.receivedPackets.lookup seq).isSome then (st, [])
  else
    let st1 := { st with packetsLost := st.packetsLost + 1 }
    if st1.interpolationEnabled then
      let p := interpolatePacket st1.receivedPackets st1.lastValidPacket now seq
      ({ st1 with
          packetsInterpolated := st1.packetsInterpolated + 1
          expectedSequenceNumber := seq + 1 }, [p])
    else
      let p := { st1.lastValidPacket with sequenceNumber := seq, timestamp := now }
      ({ st1 with expectedSequenceNumber := seq + 1 }, [p])

/-- The `for (quint32 seq = m_expectedSequenceNumber; seq < m_lastValidSequenceNumber; ++seq)`
loop, unrolled over its (fixed) iteration count `n`. -/
def gapLoop (now : ℤ) : Nat → Nat → ReceiverState → ReceiverState × List TelemetryPacket
  | _, 0, st => (st, [])
  | seq, n + 1, st =>
    let r := gapStep st now seq
    let rest := gapLoop now (seq + 1) n r.1
    (rest.1, r.2 ++ rest.2)

/-- `ReliableUdpReceiver::checkForMissingPackets` (the periodic gap check):
scans `[m_expectedSequenceNumber, m_lastValidSequenceNumber)` for
sequence numbers absent from the buffer. -/
def checkForMissingPackets (st : ReceiverState) (now : ℤ) :
    ReceiverState × List TelemetryPacket :=
  gapLoop now st.expectedSequenceNumber
    (st.lastValidSequenceNumber - st.expectedSequenceNumber) st

/-- `ReliableUdpReceiver::cleanupOldPackets`: when the buffer holds more
than `m_maxBufferSize` entries, sort the keys ascending and remove the
first `size - m_maxBufferSize` of them. -/
def cleanupOldPackets (maxB : Nat) (buf : Buffer) : Buffer :=
  if maxB < buf.length then
    let keys := List.insertionSort (· ≤ ·) (buf.map Prod.fst)
    let toRemove := buf.length - maxB
    (keys.take toRemove).foldl (fun b k => b.filter (fun kv => kv.1 ≠ k)) buf
  else buf

/-- `ReliableUdpReceiver::getPacketLossRate`:
`total > 0 ? (double(m_packetsLost) / total) * 100.0 : 0.0`. -/
def getPacketLossRate (packetsReceived packetsLost : Nat) : ℚ :=
  let total := packetsReceived + packetsLost
  if 0 < total then ((packetsLost : ℚ) / (total : ℚ)) * 100 else 0

/- ## Receiver datagram path -/

/-- Result of decoding one datagram's bytes
(`QJsonDocument::fromJson` + the `type == "ACK"` discriminator test in
`ReliableUdpReceiver::processPendingDatagrams`): a parse error, an ACK
document, or a telemetry document. -/
inductive Decoded where
  | parseFailure : Decoded
  | ackDoc : AckPacket → Decoded
  | telemetryDoc : TelemetryPacket → Decoded
deriving DecidableEq, Repr

/-- One valid incoming datagram: its decoded payload and the sender
address/port it arrived from (addresses modelled abstractly as `Nat`). -/
structure Datagram where
  payload : Decoded
  senderAddr : Nat
  senderPort : Nat
deriving DecidableEq, Repr

/-- The body of `ReliableUdpReceiver::processPendingDatagrams` for one
datagram, together with `ReliableUdpReceiver::sendAck`.  A parse error
or an ACK document is skipped (`continue`).  A telemetry document with
`needsAck` first causes one `AckPacket` with the same sequence number to
be written back to the datagram's sender address/port (`m_acksSent` is
counted only when the socket write succeeds, input `ackOk`), then the
packet goes to `processReceivedPacket`.  Returns the new state, the ACK
datagrams written (ack, destination address, destination port), and the
telemetry packets emitted to the consumer. -/
def processDatagram (st : ReceiverState) (d : Datagram) (now : ℤ) (ackOk : Bool) :
    ReceiverState × List (AckPacket × Nat × Nat) × List TelemetryPacket :=
  match d.payload with
  | Decoded.parseFailure => (st, [], [])
  | Decoded.ackDoc _ => (st, [], [])
  | Decoded.telemetryDoc p =>
    let acks :=
      if p.needsAck then
        [({ sequenceNumber := p.sequenceNumber, timestamp := now }, d.senderAddr, d.senderPort)]
      else []
    let st1 :=
      if p.needsAck && ackOk then { st with acksSent := st.acksSent + 1 } else st
    let r := processReceivedPacket st1 p
    (r.1, acks, r.2)

/-- The `while (m_socket->hasPendingDatagrams())` loop of
`ReliableUdpReceiver::processPendingDatagrams` over a queue of valid
datagrams. -/
def processPendingDatagrams (st : ReceiverState) (ds : List Datagram)
    (now : ℤ) (ackOk : Bool) :
    ReceiverState × List (AckPacket × Nat × Nat) × List TelemetryPacket :=
  match ds with
  | [] => (st, [], [])
  | d :: rest =>
    let r := processDatagram st d now ackOk
    let r2 := processPendingDatagrams r.1 rest now ackOk
    (r2.1, r.2.1 ++ r2.2.1, r.2.2 ++ r2.2.2)

/- ## Sender -/

/-- `ReliableUdpSender::PendingPacket`: a sent packet awaiting ACK. -/
structure PendingPacket where
  packet : TelemetryPacket
  sentTime : ℤ
  retransmissionCount : Nat
deriving DecidableEq, Repr

/-- The sender's `QHash<quint32, PendingPacket> m_pendingAcks`. -/
abbrev PendingMap := List (Nat × PendingPacket)

/-- `QHash::operator[] = v`: replace the entry if the key is present,
otherwise insert it. -/
def insertMap (m : PendingMap) (k : Nat) (v : PendingPacket) : PendingMap :=
  if (m.lookup k).isSome then
    m.map (fun kv => if kv.1 = k then (k, v) else kv)
  else (k, v) :: m

/-- `QHash::remove k`. -/
def removeMap (m : PendingMap) (k : Nat) : PendingMap :=
  m.filter (fun kv => kv.1 ≠ k)

/-- Mutable state of `ReliableUdpSender`. -/
structure SenderState where
  nextSequenceNumber : Nat
  pendingAcks : PendingMap
  ackTimeoutMs : ℤ
  maxRetransmissions : Nat
  reliabilityEnabled : Bool
  packetsSent : Nat
  acksReceived : Nat
  retransmissions : Nat
deriving DecidableEq, Repr

/-- Constructor state of `ReliableUdpSender`. -/
def SenderState.init : SenderState :=
  { nextSequenceNumber := 1
    pendingAcks := []
    ackTimeoutMs := 3000
    maxRetransmissions := 3
    reliabilityEnabled := true
    packetsSent := 0
    acksReceived := 0
    retransmissions := 0 }

/-- Events observable at the sender boundary: a datagram written to the
socket (original send or retransmission) and the `packetTimeout` signal. -/
inductive SenderEvent where
  | sent : TelemetryPacket → SenderEvent
  | timedOut : Nat → SenderEvent
deriving DecidableEq, Repr

/-- `ReliableUdpSender::sendTelemetryData`: stamp the payload with
`m_nextSequenceNumber++` (quint32, hence mod 2^32) and the current time,
set `needsAck = m_reliabilityEnabled`, and write the datagram.  `sendOk`
is the outcome of `writeDatagram` (`sent != -1`).  On failure the
function returns early: the sent counter is untouched and no pending
entry is created.  On success the sent counter increments and, when
reliability is on, a `PendingPacket` with `retransmissionCount = 0` is
stored under the assigned sequence number.  Also returns the datagrams
actually written. -/
def sendTelemetryData (st : SenderState) (p : TelemetryPacket) (now : ℤ)
    (sendOk : Bool) : SenderState × List TelemetryPacket :=
  let sp := { p with
    sequenceNumber := st.nextSequenceNumber
    timestamp := now
    needsAck := st.reliabilityEnabled }
  let st1 := { st with nextSequenceNumber := (st.nextSequenceNumber + 1) % U32 }
  if sendOk then
    let st2 := { st1 with packetsSent := st1.packetsSent + 1 }
    let pd : PendingPacket := { packet := sp, sentTime := now, retransmissionCount := 0 }
    let st3 :=
      if st2.reliabilityEnabled then
        { st2 with pendingAcks := insertMap st2.pendingAcks sp.sequenceNumber pd }
      else st2
    (st3, [sp])
  else (st1, [])

/-- `ReliableUdpSender::retransmitPacket`: increment the entry's
`retransmissionCount`, refresh its `sentTime`, and rewrite the stored
packet's datagram (the retransmission counter is bumped only when the
socket write succeeds, input `sendOk`). -/
def retransmitPacket (st : SenderState) (now : ℤ) (sendOk : Bool) (seq : Nat) :
    SenderState × List SenderEvent :=
  match st.pendingAcks.lookup seq with
  | none => (st, [])
  | some pd =>
    let pd1 := { pd with
      retransmissionCount := pd.retransmissionCount + 1
      sentTime := now }
    let st1 := { st with pendingAcks := insertMap st.pendingAcks seq pd1 }
    let st2 := if sendOk then { st1 with retransmissions := st1.retransmissions + 1 } else st1
    (st2, [SenderEvent.sent pd1.packet])

/-- The second loop of `ReliableUdpSender::checkForTimeouts`, over the
collected list of timed-out sequence numbers: retransmit while
`retransmissionCount < m_maxRetransmissions`, otherwise remove the entry
and emit `packetTimeout`. -/
def processTimedOut (st : SenderState) (now : ℤ) (sendOk : Bool) :
    List Nat → SenderState × List SenderEvent
  | [] => (st, [])
  | seq :: rest =>
    let r :=
      match st.pendingAcks.lookup seq with
      | none => (st, ([] : List SenderEvent))
      | some pd =>
        if pd.retransmissionCount < st.maxRetransmissions then
          retransmitPacket st now sendOk seq
        else
          ({ st with pendingAcks := removeMap st.pendingAcks seq },
            [SenderEvent.timedOut seq])
    let r2 := processTimedOut r.1 now sendOk rest
    (r2.1, r.2 ++ r2.2)

/-- `ReliableUdpSender::checkForTimeouts`: collect every pending entry
whose `sentTime` lies before `now - m_ackTimeoutMs`, then process that
list. -/
def checkForTimeouts (st : SenderState) (now : ℤ) (sendOk : Bool) :
    SenderState × List SenderEvent :=
  let timedOutSeqs :=
    (st.pendingAcks.filter (fun kv => kv.2.sentTime < now - st.ackTimeoutMs)).map Prod.fst
  processTimedOut st now sendOk timedOutSeqs

/-- Run `checkForTimeouts` at each instant of `ts` in order, with every
socket write succeeding (the scenario where the packets go out but all
ACKs are lost), concatenating the emitted events. -/
def runChecks (st : SenderState) : List ℤ → SenderState × List SenderEvent
  | [] => (st, [])
  | t :: ts =>
    let r := checkForTimeouts st t true
    let rest := runChecks r.1 ts
    (rest.1, r.2 ++ rest.2)

/-- Instants `ts`, starting after `last`, each more than `timeout` later
than the previous one — so each check finds the (just refreshed) packet
timed out again. -/
def allLate (timeout : ℤ) : ℤ → List ℤ → Prop
  | _, [] => True
  | last, t :: ts => last < t - timeout ∧ allLate timeout t ts

/- ## Concrete scenario states -/

/-- Packet "A" of the spec's gap-fill scenario, buffered at sequence 5. -/
def packetA : TelemetryPacket :=
  { TelemetryPacket.init with sequenceNumber := 5, latitude := 0, longitude := 0, speed := 0 }

/-- Packet "B" of the spec's gap-fill scenario, buffered at sequence 9,
with coordinates chosen so that the 1/4, 2/4, 3/4 blends with `packetA`
are distinguishable from plain copies. -/
def packetB : TelemetryPacket :=
  { TelemetryPacket.init with sequenceNumber := 9, latitude := 4, longitude := 8, speed := 40 }

/-- Receiver state of the gap-fill scenario: buffer `{5 ↦ A, 9 ↦ B}`,
`expectedSequenceNumber = 6`, `lastValidSequenceNumber = 9`,
interpolation enabled. -/
def gapScenario : ReceiverState :=
  { ReceiverState.init with
    receivedPackets := [(5, packetA), (9, packetB)]
    expectedSequenceNumber := 6
    lastValidSequenceNumber := 9 }

/-- A buffered packet at sequence 4, the immediate predecessor of the
missing sequence 5 in the small-sequence interpolation scenario. -/
def packetAt4 : TelemetryPacket :=
  { TelemetryPacket.init with sequenceNumber := 4, latitude := 7, longitude := 8, speed := 9 }

/-- A last-valid packet whose coordinates differ from `packetAt4`'s. -/
def lastValidW : TelemetryPacket :=
  { TelemetryPacket.init with sequenceNumber := 2, latitude := 100, longitude := 200, speed := 300 }

/-- A pending entry for sequence 7, sent at time 0, not yet
retransmitted. -/
def pendingPd : PendingPacket :=
  { packet := { TelemetryPacket.init with sequenceNumber := 7, needsAck := true }
    sentTime := 0
    retransmissionCount := 0 }

/-- Sender state holding exactly the pending packet `pendingPd`
(ACK timeout 3000 ms, retry budget 3, as in the constructor). -/
def pendingScenario : SenderState :=
  { SenderState.init with pendingAcks := [(7, pendingPd)] }

/-- A three-entry receive buffer with out-of-order distinct keys. -/
def smallBuf : Buffer := [(3, packetA), (1, packetB), (2, packetAt4)]

/-- A telemetry packet carrying the maximal `quint32` sequence number
4294967295 (reachable over the wire: a JSON document with `"seq": -1`
is cast to `quint32` in `TelemetryPacket::fromJson`). -/
def packetMaxSeq : TelemetryPacket :=
  { TelemetryPacket.init with sequenceNumber := 4294967295 }

/- ## Theorems -/

/-- C1: the spec requires `processReceivedPacket` to store each accepted
packet in `m_receivedPackets` under its sequence number, but the source
never writes to `m_receivedPackets` at all: sequence processing leaves
the receive buffer exactly as it was, so a later gap check or
interpolation lookup for that sequence number finds nothing.  In
particular, after the initial state processes a packet with sequence 5,
looking sequence 5 up in the buffer still fails. -/
theorem C1_accepted_packet_not_buffered :
    (∀ (st : ReceiverState) (p : TelemetryPacket),
      (processReceivedPacket st p).1.receivedPackets = st.receivedPackets) ∧
    ((processAll ReceiverState.init
        [{ TelemetryPacket.init with sequenceNumber := 5 }]).receivedPackets.lookup 5
      = none) := by
  constructor
  · intro st p
    unfold processReceivedPacket
    dsimp only
    split <;> split <;> rfl
  · rfl

/-- C6 counterexample: the claimed monotonicity of
`expectedSequenceNumber` fails at the maximal `quint32` sequence
number.  Processing a packet with sequence 4294967295 from the initial
state executes `m_expectedSequenceNumber = packet.sequenceNumber + 1`,
which wraps to 0 in `quint32` arithmetic — strictly below the prior
value 1. -/
theorem C6_counterexample :
    ¬ (ReceiverState.init.expectedSequenceNumber ≤
        (processReceivedPacket ReceiverState.init packetMaxSeq).1.expectedSequenceNumber) := by
  decide

/-- C6 (amended): the receiver's last-valid watermark never regresses
and every processed datagram is counted exactly once — one
`processReceivedPacket` step never decreases
`lastValidSequenceNumber` and increments `packetsReceived` by exactly
one, and over any arrival sequence (duplicates included)
`lastValidSequenceNumber` is monotone and `packetsReceived` grows by
exactly the number of datagrams; `expectedSequenceNumber` never
decreases provided the packet's sequence number is below the maximal
`quint32` value 4294967295 (there the increment wraps to 0). -/
theorem C6_watermarks_monotone_amended (st : ReceiverState) (p : TelemetryPacket)
    (ps : List TelemetryPacket) :
    (st.lastValidSequenceNumber ≤ (processReceivedPacket st p).1.lastValidSequenceNumber ∧
      (processReceivedPacket st p).1.packetsReceived = st.packetsReceived + 1 ∧
      (p.sequenceNumber + 1 < U32 →
        st.expectedSequenceNumber ≤ (processReceivedPacket st p).1.expectedSequenceNumber)) ∧
    (st.lastValidSequenceNumber ≤ (processAll st ps).lastValidSequenceNumber ∧
      (processAll st ps).packetsReceived = st.packetsReceived + ps.length ∧
      ((∀ q ∈ ps, q.sequenceNumber + 1 < U32) →
        st.expectedSequenceNumber ≤ (processAll st ps).expectedSequenceNumber)) := by
  have stepLV : ∀ (s : ReceiverState) (q : TelemetryPacket),
      s.lastValidSequenceNumber ≤ (processReceivedPacket s q).1.lastValidSequenceNumber := by
    intro s q
    unfold processReceivedPacket
    dsimp only
    split <;> split <;> simp_all
  have stepPR : ∀ (s : ReceiverState) (q : TelemetryPacket),
      (processReceivedPacket s q).1.packetsReceived = s.packetsReceived + 1 := by
    intro s q
    unfold processReceivedPacket
    dsimp only
    split <;> split <;> rfl
  have stepEXP : ∀ (s : ReceiverState) (q : TelemetryPacket),
      q.sequenceNumber + 1 < U32 →
      s.expectedSequenceNumber ≤ (processReceivedPacket s q).1.expectedSequenceNumber := by
    intro s q hq
    have hm : (q.sequenceNumber + 1) % U32 = q.sequenceNumber + 1 := Nat.mod_eq_of_lt hq
    unfold processReceivedPacket
    dsimp only
    rw [hm]
    split <;> split <;> simp_all <;> omega
  refine ⟨⟨stepLV st p, stepPR st p, stepEXP st p⟩, ?_⟩
  induction ps generalizing st with
  | nil => simp [processAll]
  | cons q qs ih =>
    have h2 := ih (processReceivedPacket st q).1
    simp only [processAll, List.foldl_cons, List.length_cons] at h2 ⊢
    refine ⟨le_trans (stepLV st q) h2.1, ?_, ?_⟩
    · rw [h2.2.1, stepPR st q]
      omega
    · intro hall
      have hq := hall q (List.mem_cons_self q qs)
      have hrest : ∀ r ∈ qs, r.sequenceNumber + 1 < U32 :=
        fun r hr => hall r (List.mem_cons_of_mem q hr)
      exact le_trans (stepEXP st q hq) (h2.2.2 hrest)

/-- Closed instance of `C6_watermarks_monotone_amended`: the initial
state processing the in-range packet `packetA` (alone and as a
singleton arrival sequence) does not regress `expectedSequenceNumber`. -/
theorem C6_watermarks_monotone_amended_witness :
    (ReceiverState.init.expectedSequenceNumber ≤
      (processReceivedPacket ReceiverState.init packetA).1.expectedSequenceNumber) ∧
    (ReceiverState.init.expectedSequenceNumber ≤
      (processAll ReceiverState.init [packetA]).expectedSequenceNumber) :=
  ⟨(C6_watermarks_monotone_amended ReceiverState.init packetA [packetA]).1.2.2 (by decide),
   (C6_watermarks_monotone_amended ReceiverState.init packetA [packetA]).2.2.2 (by decide)⟩

/-- C8: `getPacketLossRate` equals
`packetsLost / (packetsReceived + packetsLost) × 100`, is `0` when the
denominator is `0`, and yields `3` for 97 received / 3 lost. -/
theorem C8_loss_rate_formula :
    (∀ r l : Nat, getPacketLossRate r l =
      if r + l = 0 then 0 else ((l : ℚ) / ((r : ℚ) + (l : ℚ))) * 100) ∧
    getPacketLossRate 0 0 = 0 ∧
    getPacketLossRate 97 3 = 3 := by
  refine ⟨?_, by norm_num [getPacketLossRate], by norm_num [getPacketLossRate]⟩
  intro r l
  unfold getPacketLossRate
  rcases Nat.eq_zero_or_pos (r + l) with h | h
  · simp [h]
  · rw [if_pos h, if_neg (by omega)]
    push_cast
    ring

/-- C9: on the receiver's datagram path a parse failure is discarded
(no state change, nothing emitted) and processing continues with the
remaining datagrams; a decoded ACK document is likewise ignored; a
telemetry document reaches sequence processing and is emitted, and when
its `needsAck` flag is set exactly one `AckPacket` with the same
sequence number is written back to the datagram's sender address and
port. -/
theorem C9_datagram_path (st : ReceiverState) (a : AckPacket) (p : TelemetryPacket)
    (addr port : Nat) (ds : List Datagram) (now : ℤ) (ackOk : Bool) :
    processDatagram st ⟨Decoded.parseFailure, addr, port⟩ now ackOk = (st, [], []) ∧
    processDatagram st ⟨Decoded.ackDoc a, addr, port⟩ now ackOk = (st, [], []) ∧
    processPendingDatagrams st (⟨Decoded.parseFailure, addr, port⟩ :: ds) now ackOk =
      processPendingDatagrams st ds now ackOk ∧
    (processDatagram st ⟨Decoded.telemetryDoc p, addr, port⟩ now ackOk).2.1 =
      (if p.needsAck then
        [({ sequenceNumber := p.sequenceNumber, timestamp := now }, addr, port)]
      else []) ∧
    (processDatagram st ⟨Decoded.telemetryDoc p, addr, port⟩ now ackOk).2.2 = [p] := by
  refine ⟨rfl, rfl, rfl, ?_, rfl⟩
  simp only [processDatagram]

/-- One timed-out check on a sender whose pending map is the single
entry `(seq, pd)`: while the retry budget is not exhausted the packet is
retransmitted — the stored entry keeps the identical packet, its
`retransmissionCount` is incremented and its `sentTime` refreshed to the
check instant — and once the budget is spent the entry is removed and a
single `packetTimeout` event fires. -/
theorem checkForTimeouts_singleton (st : SenderState) (seq : Nat) (pd : PendingPacket)
    (t : ℤ) (hp : st.pendingAcks = [(seq, pd)])
    (hlate : pd.sentTime < t - st.ackTimeoutMs) :
    checkForTimeouts st t true =
      if pd.retransmissionCount < st.maxRetransmissions then
        ({ st with
            pendingAcks := [(seq, { pd with
              retransmissionCount := pd.retransmissionCount + 1
              sentTime := t })]
            retransmissions := st.retransmissions + 1 },
          [SenderEvent.sent pd.packet])
      else
        ({ st with pendingAcks := [] }, [SenderEvent.timedOut seq]) := by
  have hd : (decide (pd.sentTime < t - st.ackTimeoutMs)) = true := decide_eq_true hlate
  by_cases hc : pd.retransmissionCount < st.maxRetransmissions
  · rw [if_pos hc]
    simp [checkForTimeouts, processTimedOut, retransmitPacket, insertMap, hp, hd, hc,
      List.filter]
  · rw [if_neg hc]
    simp [checkForTimeouts, processTimedOut, removeMap, hp, hd, hc, List.filter]

/-- Iterated timed-out checks on a sender holding one pending packet:
starting from retransmission count `c ≤ maxRetransmissions`, after
`maxRetransmissions - c + 1` sufficiently late checks the packet has
been resent once per check until the budget was reached, then removed
with exactly one timeout event. -/
theorem runChecks_singleton (ts : List ℤ) :
    ∀ (st : SenderState) (seq : Nat) (pd : PendingPacket),
      st.pendingAcks = [(seq, pd)] →
      pd.retransmissionCount ≤ st.maxRetransmissions →
      pd.retransmissionCount + ts.length = st.maxRetransmissions + 1 →
      allLate st.ackTimeoutMs pd.sentTime ts →
      (runChecks st ts).1.pendingAcks = [] ∧
      (runChecks st ts).1.retransmissions =
        st.retransmissions + (st.maxRetransmissions - pd.retransmissionCount) ∧
      (runChecks st ts).2 =
        List.replicate (st.maxRetransmissions - pd.retransmissionCount)
          (SenderEvent.sent pd.packet) ++ [SenderEvent.timedOut seq] := by
  induction ts with
  | nil =>
    intro st seq pd _ hle hlen _
    exact absurd hlen (by simp; omega)
  | cons t ts ih =>
    intro st seq pd hp hle hlen hts
    obtain ⟨hlate, hrest⟩ := hts
    have hstep := checkForTimeouts_singleton st seq pd t hp hlate
    by_cases hc : pd.retransmissionCount < st.maxRetransmissions
    · rw [if_pos hc] at hstep
      have h1 := ih { st with
          pendingAcks := [(seq, { pd with
            retransmissionCount := pd.retransmissionCount + 1
            sentTime := t })]
          retransmissions := st.retransmissions + 1 } seq
        { pd with retransmissionCount := pd.retransmissionCount + 1, sentTime := t }
        rfl (by simp; omega) (by simp at hlen ⊢; omega) hrest
      simp only [runChecks, hstep] at h1 ⊢
      refine ⟨h1.1, ?_, ?_⟩
      · rw [h1.2.1]
        omega
      · rw [h1.2.2]
        have hsub : st.maxRetransmissions - pd.retransmissionCount =
            (st.maxRetransmissions - (pd.retransmissionCount + 1)) + 1 := by omega
        rw [hsub, List.replicate_succ]
        simp
    · have hcm : pd.retransmissionCount = st.maxRetransmissions := by omega
      have hts0 : ts = [] := List.length_eq_zero.mp (by simp at hlen; omega)
      subst hts0
      rw [if_neg hc] at hstep
      simp only [runChecks, hstep]
      simp [hcm]

/-- C3: a pending packet none of whose ACKs ever arrive is retransmitted
exactly `maxRetransmissions` times across successive timed-out checks —
each resent datagram is the unchanged original packet, so it carries the
identical sequence number, and each retransmission increments the
entry's `retransmissionCount` and refreshes its `sentTime` (shown by
`checkForTimeouts_singleton`, which this proof iterates) — after which
exactly one `packetTimeout` event fires for that sequence number and the
pending entry is removed. -/
theorem C3_retry_budget (st : SenderState) (seq : Nat) (pd : PendingPacket) (ts : List ℤ)
    (hp : st.pendingAcks = [(seq, pd)])
    (h0 : pd.retransmissionCount = 0)
    (hlen : ts.length = st.maxRetransmissions + 1)
    (hts : allLate st.ackTimeoutMs pd.sentTime ts) :
    (runChecks st ts).1.pendingAcks = [] ∧
    (runChecks st ts).1.retransmissions = st.retransmissions + st.maxRetransmissions ∧
    (runChecks st ts).2 =
      List.replicate st.maxRetransmissions (SenderEvent.sent pd.packet) ++
        [SenderEvent.timedOut seq] := by
  have h := runChecks_singleton ts st seq pd hp (by omega) (by omega) hts
  simpa [h0] using h

/-- Closed instance of `C3_retry_budget`: the single pending packet of
`pendingScenario` (budget 3, ACK timeout 3000) under four successive
late checks is resent three times and then times out once. -/
theorem C3_retry_budget_witness :
    (runChecks pendingScenario [3001, 6002, 9003, 12004]).1.pendingAcks = [] ∧
    (runChecks pendingScenario [3001, 6002, 9003, 12004]).1.retransmissions =
      pendingScenario.retransmissions + pendingScenario.maxRetransmissions ∧
    (runChecks pendingScenario [3001, 6002, 9003, 12004]).2 =
      List.replicate pendingScenario.maxRetransmissions
        (SenderEvent.sent pendingPd.packet) ++ [SenderEvent.timedOut 7] :=
  C3_retry_budget pendingScenario 7 pendingPd [3001, 6002, 9003, 12004] rfl rfl rfl
    (by norm_num [allLate, pendingScenario, pendingPd, SenderState.init])

/-- C5: the claimed interpolation policy fails for small sequence
numbers.  In `interpolatePacket` the backward loop bound
`i > sequenceNumber - 10` is `quint32` arithmetic: for sequence 5 the
bound underflows to 2^32 - 5, the comparison is false at once and the
backward search examines no predecessor at all.  With sequence 4
buffered (the nearest predecessor of missing sequence 5) and no
successor, the emitted packet takes `m_lastValidPacket`'s position and
speed instead of copying the buffered predecessor as claimed. -/
theorem C5_underflow_skips_predecessor :
    interpolatePacket [(4, packetAt4)] lastValidW 0 5 =
      { TelemetryPacket.init with
        sequenceNumber := 5
        status := "INTERPOLATED"
        latitude := 100
        longitude := 200
        speed := 300 } ∧
    ¬ lastValidW.latitude = packetAt4.latitude := by
  constructor
  · decide
  · decide

/-- C2: evaluation of the gap-fill scenario (buffer `{5 ↦ A, 9 ↦ B}`,
gap check over `[6, 9)`, interpolation enabled).  Sequences 6, 7, 8 are
each emitted exactly once with status `INTERPOLATED` and
`expectedSequenceNumber` ends at 9, but the coordinates are all copies
of packet B (latitude 4, longitude 8, speed 40) rather than the claimed
linear blends at fractions 1/4, 2/4, 3/4 (latitudes 1, 2, 3): the
backward search underflows for sequences below 10 and never finds
packet A. -/
theorem C2_gap_fill_copies_successor :
    (checkForMissingPackets gapScenario 0).2.map TelemetryPacket.sequenceNumber
      = [6, 7, 8] ∧
    (checkForMissingPackets gapScenario 0).2.map TelemetryPacket.status
      = ["INTERPOLATED", "INTERPOLATED", "INTERPOLATED"] ∧
    (checkForMissingPackets gapScenario 0).1.expectedSequenceNumber = 9 ∧
    (checkForMissingPackets gapScenario 0).1.packetsLost =
      gapScenario.packetsLost + 3 ∧
    (checkForMissingPackets gapScenario 0).1.packetsInterpolated =
      gapScenario.packetsInterpolated + 3 ∧
    (checkForMissingPackets gapScenario 0).2.map TelemetryPacket.latitude
      = [4, 4, 4] ∧
    ¬ ((checkForMissingPackets gapScenario 0).2.map TelemetryPacket.latitude
      = [1, 2, 3]) := by
  refine ⟨by decide, by decide, by decide, by decide, by decide, by decide, by decide⟩

/-- Replacing the entry under a present key, the way `insertMap` does,
makes a later lookup of that key return the new value. -/
theorem lookup_replaceKey (k : Nat) (v : PendingPacket) :
    ∀ m : PendingMap, (List.lookup k m).isSome = true →
      List.lookup k (m.map (fun kv => if kv.1 = k then (k, v) else kv)) = some v
  | [], h => by simp at h
  | (k1, v1) :: m, h => by
    dsimp only [List.map_cons]
    by_cases hk : k1 = k
    · rw [if_pos hk]
      exact List.lookup_cons_self
    · rw [if_neg hk]
      have hne : (k == k1) = false := by
        simpa [beq_eq_false_iff_ne] using Ne.symm hk
      have h' : (List.lookup k m).isSome = true := by
        rw [List.lookup_cons] at h
        simpa [hne] using h
      rw [List.lookup_cons]
      simpa [hne] using lookup_replaceKey k v m h'

/-- Looking up the key just written by `insertMap` yields the written
value. -/
theorem lookup_insertMap (m : PendingMap) (k : Nat) (v : PendingPacket) :
    (insertMap m k v).lookup k = some v := by
  unfold insertMap
  split
  next h => exact lookup_replaceKey k v m h
  next h => simp [List.lookup]

/-- C4 counterexample: the claim requires every call of the send
operation to increment the sent-packet counter, but when the transmit
fails `sendTelemetryData` returns before `m_packetsSent++`, leaving the
counter unchanged. -/
theorem C4_counterexample :
    ¬ ((sendTelemetryData SenderState.init TelemetryPacket.init 0 false).1.packetsSent
        = SenderState.init.packetsSent + 1) := by decide

/-- C4 (amended): `sendTelemetryData` increments the sent-packet counter
only on a successful transmit; on transmit failure the counter is
unchanged and no pending-ack entry is created; on a successful transmit
with `m_reliabilityEnabled` a pending entry with
`retransmissionCount = 0` (and `sentTime = now`) is inserted under the
assigned sequence number; without reliability no entry is created. -/
theorem C4_send_accounting (st : SenderState) (p : TelemetryPacket) (now : ℤ) :
    ((sendTelemetryData st p now false).1.packetsSent = st.packetsSent ∧
      (sendTelemetryData st p now false).1.pendingAcks = st.pendingAcks) ∧
    (sendTelemetryData st p now true).1.packetsSent = st.packetsSent + 1 ∧
    (st.reliabilityEnabled = true →
      (sendTelemetryData st p now true).1.pendingAcks.lookup st.nextSequenceNumber =
        some { packet := { p with
                  sequenceNumber := st.nextSequenceNumber
                  timestamp := now
                  needsAck := true }
               sentTime := now
               retransmissionCount := 0 }) ∧
    (st.reliabilityEnabled = false →
      (sendTelemetryData st p now true).1.pendingAcks = st.pendingAcks) := by
  refine ⟨⟨rfl, rfl⟩, ?_, ?_, ?_⟩
  · unfold sendTelemetryData
    dsimp only
    rw [if_pos rfl]
    split <;> rfl
  · intro hrel
    unfold sendTelemetryData
    dsimp only
    rw [if_pos rfl, if_pos hrel, hrel]
    exact lookup_insertMap _ _ _
  · intro hrel
    unfold sendTelemetryData
    dsimp only
    rw [if_pos rfl, if_neg (by simp [hrel])]

/-- Closed instance of `C4_send_accounting`: at the constructor state
(reliability on) a successful send stores a pending entry with
retransmission count 0 under sequence number 1, and with reliability
switched off it stores nothing. -/
theorem C4_send_accounting_witness :
    ((sendTelemetryData SenderState.init TelemetryPacket.init 0 true).1.pendingAcks.lookup
        SenderState.init.nextSequenceNumber =
      some { packet := { TelemetryPacket.init with
                sequenceNumber := SenderState.init.nextSequenceNumber
                timestamp := 0
                needsAck := true }
             sentTime := 0
             retransmissionCount := 0 }) ∧
    (sendTelemetryData { SenderState.init with reliabilityEnabled := false }
        TelemetryPacket.init 0 true).1.pendingAcks =
      { SenderState.init with reliabilityEnabled := false }.pendingAcks :=
  ⟨(C4_send_accounting SenderState.init TelemetryPacket.init 0).2.2.1 rfl,
   (C4_send_accounting { SenderState.init with reliabilityEnabled := false }
      TelemetryPacket.init 0).2.2.2 rfl⟩

/-- Removing a list of keys one by one, the way the eviction loop of
`cleanupOldPackets` does, equals one filter against the key list. -/
theorem foldl_removeKeys (ks : List Nat) :
    ∀ b : Buffer,
      ks.foldl (fun b k => b.filter (fun kv => kv.1 ≠ k)) b =
        b.filter (fun kv => decide (kv.1 ∉ ks)) := by
  induction ks with
  | nil => intro b; simp
  | cons k ks ih =>
    intro b
    rw [List.foldl_cons, ih, List.filter_filter]
    congr 1
    funext kv
    simp only [List.mem_cons, not_or, Bool.decide_and]
    rw [Bool.and_comm]

/-- C7: eviction by lowest sequence number.  On a buffer with distinct
keys, `cleanupOldPackets` leaves a buffer of at most `maxB` entries
unchanged; on an over-full buffer it leaves exactly `maxB` entries, all
of them original entries, and every evicted entry's key is numerically
smaller than every surviving entry's key — i.e. exactly the
`size - maxB` lowest sequence numbers are evicted and the `maxB`
highest are kept. -/
theorem C7_cleanup_evicts_smallest (maxB : Nat) (buf : Buffer)
    (hnd : (buf.map Prod.fst).Nodup) :
    (buf.length ≤ maxB → cleanupOldPackets maxB buf = buf) ∧
    (maxB < buf.length →
      (cleanupOldPackets maxB buf).length = maxB ∧
      (∀ kv, kv ∈ cleanupOldPackets maxB buf → kv ∈ buf) ∧
      (∀ kv kv2, kv ∈ buf → kv ∉ cleanupOldPackets maxB buf →
        kv2 ∈ cleanupOldPackets maxB buf → kv.1 < kv2.1)) := by
  constructor
  · intro hle
    unfold cleanupOldPackets
    rw [if_neg (by omega)]
  · intro hlt
    have hcleanup : cleanupOldPackets maxB buf =
        buf.filter (fun kv =>
          decide (kv.1 ∉
            (List.insertionSort (· ≤ ·) (buf.map Prod.fst)).take (buf.length - maxB))) := by
      unfold cleanupOldPackets
      rw [if_pos hlt]
      exact foldl_removeKeys _ _
    set s := List.insertionSort (· ≤ ·) (buf.map Prod.fst) with hs
    set t := buf.length - maxB with ht
    have hperm : s.Perm (buf.map Prod.fst) := List.perm_insertionSort _ _
    have hsnd : s.Nodup := (hperm.nodup_iff).mpr hnd
    have hsorted : List.Sorted (· ≤ ·) s := List.sorted_insertionSort _ _
    have hlens : s.length = buf.length := by
      rw [hperm.length_eq, List.length_map]
    have hts : t ≤ s.length := by omega
    have hsplit : s.take t ++ s.drop t = s := List.take_append_drop t s
    have hdisj : (s.take t).Disjoint (s.drop t) := by
      have := hsplit ▸ hsnd
      exact (List.nodup_append.mp this).2.2
    have horder : ∀ x ∈ s.take t, ∀ y ∈ s.drop t, x ≤ y := by
      have hpw : List.Pairwise (· ≤ ·) (s.take t ++ s.drop t) := by
        rw [hsplit]; exact hsorted
      exact (List.pairwise_append.mp hpw).2.2
    have hcount : List.countP (fun kv => decide (kv.1 ∈ s.take t)) buf = t := by
      have h1 : List.countP (fun kv => decide (kv.1 ∈ s.take t)) buf =
          List.countP (fun x => decide (x ∈ s.take t)) (buf.map Prod.fst) := by
        rw [List.countP_map]
        rfl
      have h2 : List.countP (fun x => decide (x ∈ s.take t)) (buf.map Prod.fst) =
          List.countP (fun x => decide (x ∈ s.take t)) s :=
        (List.Perm.countP_eq _ hperm).symm
      have h3 : List.countP (fun x => decide (x ∈ s.take t)) s = t := by
        have h4 : List.countP (fun x => decide (x ∈ s.take t)) (s.take t) =
            (s.take t).length :=
          List.countP_eq_length.mpr (fun a ha => decide_eq_true ha)
        have h5 : List.countP (fun x => decide (x ∈ s.take t)) (s.drop t) = 0 :=
          List.countP_eq_zero.mpr (fun a ha => by
            simp only [decide_eq_true_eq]
            exact fun hmem => hdisj hmem ha)
        have hap := List.countP_append (fun x => decide (x ∈ s.take t))
          (s.take t) (s.drop t)
        rw [hsplit] at hap
        rw [hap, h4, h5, List.length_take]
        omega
      rw [h1, h2, h3]
    refine ⟨?_, ?_, ?_⟩
    · rw [hcleanup]
      have hsum := List.length_eq_countP_add_countP
        (fun kv : Nat × TelemetryPacket => decide (kv.1 ∈ s.take t)) buf
      have hcongr : List.countP
          (fun kv : Nat × TelemetryPacket => decide ¬(decide (kv.1 ∈ s.take t)) = true) buf =
          List.countP (fun kv : Nat × TelemetryPacket => decide (kv.1 ∉ s.take t)) buf := by
        refine List.countP_congr (fun kv _ => ?_)
        simp
      rw [hcongr] at hsum
      rw [← List.countP_eq_length_filter]
      omega
    · intro kv hmem
      rw [hcleanup] at hmem
      exact (List.mem_filter.mp hmem).1
    · intro kv kv2 hkv hnotin hkv2
      rw [hcleanup] at hnotin hkv2
      have hin : kv.1 ∈ s.take t := by
        by_contra hn
        exact hnotin (List.mem_filter.mpr ⟨hkv, decide_eq_true hn⟩)
      obtain ⟨hkv2b, hkv2p⟩ := List.mem_filter.mp hkv2
      have hnotin2 : kv2.1 ∉ s.take t := of_decide_eq_true hkv2p
      have hkv2s : kv2.1 ∈ s := hperm.mem_iff.mpr (List.mem_map_of_mem Prod.fst hkv2b)
      have hkv2d : kv2.1 ∈ s.drop t := by
        have hm : kv2.1 ∈ s.take t ++ s.drop t := by rw [hsplit]; exact hkv2s
        rcases List.mem_append.mp hm with h | h
        · exact absurd h hnotin2
        · exact h
      have hle : kv.1 ≤ kv2.1 := horder _ hin _ hkv2d
      have hne : kv.1 ≠ kv2.1 := by
        intro he
        exact hdisj (he ▸ hin) hkv2d
      omega

/-- Closed instance of `C7_cleanup_evicts_smallest` on the three-entry
buffer `smallBuf` (keys 3, 1, 2): with capacity 5 it is unchanged, with
capacity 2 exactly one entry is evicted. -/
theorem C7_cleanup_evicts_smallest_witness :
    cleanupOldPackets 5 smallBuf = smallBuf ∧
    (cleanupOldPackets 2 smallBuf).length = 2 :=
  ⟨(C7_cleanup_evicts_smallest 5 smallBuf (by decide)).1 (by decide),
   ((C7_cleanup_evicts_smallest 2 smallBuf (by decide)).2 (by decide)).1⟩

/-- C10: every `sendTelemetryData` call consumes a sequence number:
`m_nextSequenceNumber` is incremented by exactly one whether or not the
datagram write succeeds (so a failed transmit leaves a gap in the
stream), and a failed transmit puts no datagram on the wire. -/
theorem C10_sequence_number_consumed (st : SenderState) (p : TelemetryPacket)
    (now : ℤ) (sendOk : Bool) (h : st.nextSequenceNumber + 1 < U32) :
    (sendTelemetryData st p now sendOk).1.nextSequenceNumber =
      st.nextSequenceNumber + 1 ∧
    (sendTelemetryData st p now false).2 = [] := by
  constructor
  · unfold sendTelemetryData
    dsimp only
    have hm : (st.nextSequenceNumber + 1) % U32 = st.nextSequenceNumber + 1 :=
      Nat.mod_eq_of_lt h
    split
    · split <;> simp [hm]
    · simp [hm]
  · rfl

/-- Closed instance of `C10_sequence_number_consumed` at the
constructor state (next sequence number 1) with a failed transmit. -/
theorem C10_sequence_number_consumed_witness :
    (sendTelemetryData SenderState.init TelemetryPacket.init 0 false).1.nextSequenceNumber
      = SenderState.init.nextSequenceNumber + 1 ∧
    (sendTelemetryData SenderState.init TelemetryPacket.init 0 false).2 = [] :=
  C10_sequence_number_consumed SenderState.init TelemetryPacket.init 0 false (by decide)

end RadarQT
